import Mathlib

/-!
Verification of the janode protocol runtime core.

This file gives a shallow embedding of the pieces of the janode client
adapter that the checked properties concern: the transaction manager
(`src/tmanager.ts`), the circular address iterator and numeric-id utilities
(`src/utils/utils.ts`), the inbound message routers of `Connection`
(`src/connection.ts`), `Session` (`src/session.ts`) and `Handle`
(`src/handle.ts`), the teardown procedures of the three levels, the
keep-alive arithmetic of the session, the retry loop of the WebSocket
transport (`src/transport-ws.ts`), and the `detach` operation of a handle.

Modelling conventions:
* JavaScript reference identity of transaction owners (`===`) is modelled by
  a numeric `tag` carried in `OwnerRef`; two owners are reference-identical
  iff their tags coincide (distinct live objects get distinct tags).
* Promise `resolve`/`reject` continuation pairs are modelled by a numeric
  callback identifier `cb`; invoking a continuation is recorded as an
  observable effect (`Eff.done` / `Eff.err`).  Event-emitter emissions are
  recorded as `Eff.emit` with the event name (payloads are not needed by any
  checked property and are elided).
* JavaScript `Map` objects are modelled by insertion-ordered association
  lists with `Map.get`/`Map.set`/`Map.delete` semantics (`findA`, `setA`,
  `delA`).
* Absent (undefined) message fields follow JavaScript falsiness: the
  `transaction` field is `""` when absent, numeric `sender`/`session_id`
  fields are `0` when absent.
* A pending `setTimeout` timer armed by `createTransaction` is recorded in
  the stored transaction (`timeoutArmed`); both close operations call
  `clearTimeout` before deleting the entry, so a timer can only fire while
  its entry is still present and armed (`timeoutFire`).
-/

/-- A reference to a transaction owner (a Connection, Session or Handle
object).  `tag` models JavaScript reference identity; `id` models the
owner's `id` property, which the session router uses to look up a handle
in its handle table. -/
structure OwnerRef where
  tag : Nat
  id : Nat
deriving DecidableEq

/-- The payload of the `error` field of a `janus=error` message:
`error.code` and `error.reason`. -/
structure ErrInfo where
  code : Nat
  reason : String
deriving DecidableEq

/-- An inbound Janus message restricted to the fields the routers inspect.
`transaction = ""` and `sender = 0` / `session_id = 0` stand for absent
fields (both absent and these values are falsy in the JavaScript source). -/
structure Msg where
  janus : String
  transaction : String
  sender : Nat
  session_id : Nat
  error : Option ErrInfo
deriving DecidableEq

/-- Observable effects of the runtime: `done cb data` invokes the success
continuation of the promise identified by `cb` (resolving a pending
`sendRequest`), `err cb emsg` invokes its error continuation with an Error
whose message is `emsg`, and `emit tag ev` emits the event named `ev` on
the emitter whose owner tag is `tag`. -/
inductive Eff where
  | done (cb : Nat) (data : Msg)
  | err (cb : Nat) (emsg : String)
  | emit (tag : Nat) (ev : String)
deriving DecidableEq

/-- A pending transaction stored in the manager (tmanager.ts).  `cb`
identifies the `done`/`error` continuation pair; `timeoutArmed` records a
pending (not yet cleared) timeout timer. -/
structure PendingTransaction where
  id : String
  owner : OwnerRef
  request : String
  cb : Nat
  timeoutArmed : Bool
deriving DecidableEq

/-- JavaScript `Map.get` on an insertion-ordered association list. -/
def findA {κ β : Type} [DecidableEq κ] : List (κ × β) → κ → Option β
  | [], _ => none
  | (k, v) :: rest, key => if k = key then some v else findA rest key

/-- JavaScript `Map.set`: replace in place if the key exists, else append. -/
def setA {κ β : Type} [DecidableEq κ] : List (κ × β) → κ → β → List (κ × β)
  | [], key, v => [(key, v)]
  | (k, w) :: rest, key, v =>
    if k = key then (key, v) :: rest else (k, w) :: setA rest key v

/-- JavaScript `Map.delete`: remove the entry with the given key. -/
def delA {κ β : Type} [DecidableEq κ] : List (κ × β) → κ → List (κ × β)
  | [], _ => []
  | (k, w) :: rest, key => if k = key then rest else (k, w) :: delA rest key

/-- The transaction manager: the `transactions` map of tmanager.ts. -/
structure TransactionManager where
  table : List (String × PendingTransaction)
deriving DecidableEq

namespace TransactionManager

/-- `TransactionManager.has`: false on a falsy id, else map membership. -/
def has (tm : TransactionManager) (id : String) : Bool :=
  if id = "" then false else (findA tm.table id).isSome

/-- `TransactionManager.get`: nothing on a falsy or missing id. -/
def get (tm : TransactionManager) (id : String) : Option PendingTransaction :=
  if id = "" then none
  else if tm.has id then findA tm.table id
  else none

/-- `TransactionManager.size`. -/
def size (tm : TransactionManager) : Nat := tm.table.length

/-- `TransactionManager.set`: no-op on a falsy id. -/
def set (tm : TransactionManager) (id : String) (tx : PendingTransaction) :
    TransactionManager :=
  if id = "" then tm else ⟨setA tm.table id tx⟩

/-- `TransactionManager.delete`: no-op on a falsy or missing id. -/
def delete (tm : TransactionManager) (id : String) : TransactionManager :=
  if id = "" then tm
  else if tm.has id then ⟨delA tm.table id⟩
  else tm

/-- `TransactionManager.getTransactionOwner`. -/
def getTransactionOwner (tm : TransactionManager) (id : String) : Option OwnerRef :=
  if id = "" then none
  else if tm.has id then (tm.get id).map (fun tx => tx.owner)
  else none

/-- `TransactionManager.clear`. -/
def clear (_tm : TransactionManager) : TransactionManager := ⟨[]⟩

/-- `TransactionManager.createTransaction`: nothing if the id already
exists; otherwise build the record, arm a timeout when `timeout_ms > 0`,
store it with `set` and return it. -/
def createTransaction (tm : TransactionManager) (id : String) (owner : OwnerRef)
    (request : String) (cb : Nat) (timeout_ms : Nat) :
    TransactionManager × Option PendingTransaction :=
  if tm.has id then (tm, none)
  else
    let tx : PendingTransaction :=
      { id := id, owner := owner, request := request, cb := cb,
        timeoutArmed := timeout_ms ≠ 0 }
    (tm.set id tx, some tx)

/-- `TransactionManager.closeTransactionWithError`: nothing if the id is
missing or the owner is not reference-identical; otherwise clear the
timeout, delete the entry and invoke the error continuation. -/
def closeTransactionWithError (tm : TransactionManager) (id : String)
    (owner : OwnerRef) (emsg : String) :
    TransactionManager × List Eff × Option PendingTransaction :=
  match tm.get id with
  | none => (tm, [], none)
  | some tx =>
    if tx.owner ≠ owner then (tm, [], none)
    else (tm.delete id, [Eff.err tx.cb emsg], some tx)

/-- `TransactionManager.closeTransactionWithSuccess`: nothing if the id is
missing or the owner is not reference-identical; otherwise clear the
timeout, delete the entry and invoke the done continuation. -/
def closeTransactionWithSuccess (tm : TransactionManager) (id : String)
    (owner : OwnerRef) (data : Msg) :
    TransactionManager × List Eff × Option PendingTransaction :=
  match tm.get id with
  | none => (tm, [], none)
  | some tx =>
    if tx.owner ≠ owner then (tm, [], none)
    else (tm.delete id, [Eff.done tx.cb data], some tx)

/-- The filter of `closeAllTransactionsWithError`:
`!owner || pendingTx.owner === owner`. -/
def ownerMatches (owner : Option OwnerRef) (tx : PendingTransaction) : Bool :=
  match owner with
  | none => true
  | some ow => decide (tx.owner = ow)

/-- Iteration body of `closeAllTransactionsWithError` over a snapshot of the
entries (deletions only remove the visited entry, so iterating the snapshot
agrees with live `Map` iteration). -/
def closeAllAux (owner : Option OwnerRef) (emsg : String) :
    TransactionManager → List (String × PendingTransaction) →
    TransactionManager × List Eff
  | tm, [] => (tm, [])
  | tm, (_, tx) :: rest =>
    let first :=
      if ownerMatches owner tx then
        let r := tm.closeTransactionWithError tx.id tx.owner emsg
        (r.1, r.2.1)
      else (tm, ([] : List Eff))
    let r2 := closeAllAux owner emsg first.1 rest
    (r2.1, first.2 ++ r2.2)

/-- `TransactionManager.closeAllTransactionsWithError`. -/
def closeAllTransactionsWithError (tm : TransactionManager)
    (owner : Option OwnerRef) (emsg : String) : TransactionManager × List Eff :=
  closeAllAux owner emsg tm tm.table

/-- The timeout timer armed by `createTransaction` firing for `id`.  A timer
can only fire while it is still armed (both close operations call
`clearTimeout` before removing the entry); the timer closure deletes the
entry and invokes the error continuation with "Transaction timed out!". -/
def timeoutFire (tm : TransactionManager) (id : String) :
    TransactionManager × List Eff :=
  match tm.get id with
  | some tx =>
    if tx.timeoutArmed then (tm.delete id, [Eff.err tx.cb "Transaction timed out!"])
    else (tm, [])
  | none => (tm, [])

end TransactionManager

/-- The `CircularIterator` of utils.ts, produced by `newIterator`: a frozen
copy of the list together with a monotonically growing index `i`. -/
structure CircularIterator (α : Type) where
  list : List α
  i : Nat
deriving DecidableEq

/-- `newIterator`: copy the list and start at index 0. -/
def newIterator {α : Type} (list : List α) : CircularIterator α := ⟨list, 0⟩

/-- `currElem: () => l[i % len]` — the current element, without advancing. -/
def CircularIterator.currElem {α : Type} (it : CircularIterator α) : Option α :=
  it.list.get? (it.i % it.list.length)

/-- `nextElem: () => l[i++ % len]` — returns `l[i % len]` and *then*
increments `i` (post-increment). -/
def CircularIterator.nextElem {α : Type} (it : CircularIterator α) :
    Option α × CircularIterator α :=
  (it.list.get? (it.i % it.list.length), { it with i := it.i + 1 })

/-- State of a Handle (handle.ts): its owner reference and the
`_detaching`/`_detached` flags. -/
structure HandleState where
  ref : OwnerRef
  detaching : Bool
  detached : Bool
deriving DecidableEq

/-- State of a Session (session.ts): its owner reference, the handle table
(keyed by handle id), the `_destroying`/`_destroyed` flags and the presence
of the keep-alive task (`_ka_task`). -/
structure SessState where
  ref : OwnerRef
  handles : List (Nat × HandleState)
  destroying : Bool
  destroyed : Bool
  kaTask : Bool
deriving DecidableEq

/-- State of a Connection (connection.ts): its owner reference, the admin
flag of its configuration and the session table (keyed by session id). -/
structure ConnState where
  ref : OwnerRef
  isAdmin : Bool
  sessions : List (Nat × SessState)
deriving DecidableEq

/-- protocol.ts `isResponseData`: janus is a definitive response. -/
def isResponseData (m : Msg) : Bool :=
  m.janus = "success" ∨ m.janus = "server_info" ∨ m.janus = "error"

/-- protocol.ts `isErrorData`. -/
def isErrorData (m : Msg) : Bool := m.janus = "error"

/-- protocol.ts `isAckData`. -/
def isAckData (m : Msg) : Bool := m.janus = "ack"

/-- protocol.ts `isTimeoutData`. -/
def isTimeoutData (m : Msg) : Bool := m.janus = "timeout"

/-- The error text built from an inbound error message:
`` `${janus_message.error.code} ${janus_message.error.reason}` ``.  On a real
`janus=error` message the `error` field is present; when it is absent the
JavaScript source would throw reading `.code`, a case no checked property
exercises. -/
def errorText (m : Msg) : String :=
  match m.error with
  | some e => toString e.code ++ " " ++ e.reason
  | none => ""

namespace Handle

/-- `Handle._isTrickleTx`. -/
def _isTrickleTx (tm : TransactionManager) (id : String) : Bool :=
  match tm.get id with
  | some tx => tx.request = "trickle"
  | none => false

/-- `Handle._isHangupTx`. -/
def _isHangupTx (tm : TransactionManager) (id : String) : Bool :=
  match tm.get id with
  | some tx => tx.request = "hangup"
  | none => false

/-- `Handle._isDetachTx`. -/
def _isDetachTx (tm : TransactionManager) (id : String) : Bool :=
  match tm.get id with
  | some tx => tx.request = "detach"
  | none => false

/-- `Handle.ownsTransaction`: the manager's recorded owner is
reference-identical to this handle. -/
def ownsTransaction (tm : TransactionManager) (h : OwnerRef) (id : String) : Bool :=
  tm.getTransactionOwner id = some h

/-- `Handle._signalDetach`: once only — set the flags, close all handle-owned
transactions with "handle detached" and emit HANDLE_DETACHED. -/
def _signalDetach (hs : HandleState) (tm : TransactionManager) :
    HandleState × TransactionManager × List Eff :=
  if hs.detached then (hs, tm, [])
  else
    let hs2 : HandleState := { hs with detaching := false, detached := true }
    let r := tm.closeAllTransactionsWithError (some hs.ref) "handle detached"
    (hs2, r.1, r.2 ++ [Eff.emit hs.ref.tag "handle_detached"])

/-- The switch on `janus` at the bottom of `Handle._handleMessage` for
messages that did not close a transaction (async events).  The base-class
`handleMessage` plugin hook returns null (falsy), so a `janus=event` message
closes the transaction with an "unmanaged event" error.  Event payloads are
elided from the emitted effects. -/
def handleAsyncEvent (hs : HandleState) (tm : TransactionManager) (msg : Msg) :
    HandleState × TransactionManager × List Eff :=
  if msg.janus = "event" then
    let r := tm.closeTransactionWithError msg.transaction hs.ref "unmanaged event"
    (hs, r.1, r.2.1)
  else if msg.janus = "detached" then _signalDetach hs tm
  else if msg.janus = "ice-failed" then (hs, tm, [Eff.emit hs.ref.tag "handle_ice_failed"])
  else if msg.janus = "hangup" then (hs, tm, [Eff.emit hs.ref.tag "handle_hangup"])
  else if msg.janus = "media" then (hs, tm, [Eff.emit hs.ref.tag "handle_media"])
  else if msg.janus = "webrtcup" then (hs, tm, [Eff.emit hs.ref.tag "handle_webrtcup"])
  else if msg.janus = "slowlink" then (hs, tm, [Eff.emit hs.ref.tag "handle_slowlink"])
  else if msg.janus = "trickle" then (hs, tm, [Eff.emit hs.ref.tag "handle_trickle"])
  else (hs, tm, [])

/-- `Handle._handleMessage`: for an owned transaction, an ack closes it with
success only when the pending request verb is `trickle`; a definitive
response closes it with error on `janus=error` and with success otherwise
(hangup/detach verbs explicitly, any other verb through the plugin-hook
fallback).  All remaining messages fall through to the async-event switch. -/
def _handleMessage (hs : HandleState) (tm : TransactionManager) (msg : Msg) :
    HandleState × TransactionManager × List Eff :=
  if msg.transaction = "" then handleAsyncEvent hs tm msg
  else if ownsTransaction tm hs.ref msg.transaction then
    if isAckData msg then
      if _isTrickleTx tm msg.transaction then
        let r := tm.closeTransactionWithSuccess msg.transaction hs.ref msg
        (hs, r.1, r.2.1)
      else (hs, tm, [])
    else if isResponseData msg then
      if isErrorData msg then
        let r := tm.closeTransactionWithError msg.transaction hs.ref (errorText msg)
        (hs, r.1, r.2.1)
      else if _isHangupTx tm msg.transaction then
        let r := tm.closeTransactionWithSuccess msg.transaction hs.ref msg
        (hs, r.1, r.2.1)
      else if _isDetachTx tm msg.transaction then
        let r := tm.closeTransactionWithSuccess msg.transaction hs.ref msg
        (hs, r.1, r.2.1)
      else
        let r := tm.closeTransactionWithSuccess msg.transaction hs.ref msg
        (hs, r.1, r.2.1)
    else handleAsyncEvent hs tm msg
  else handleAsyncEvent hs tm msg

/-- `Handle.detach`: reject while a detach is in progress or after
detachment; otherwise set `_detaching`, send the detach request and on
success run `_signalDetach`.  On request failure the catch block resets
`_detaching` to false, logs, and resolves without throwing. -/
def detach (hs : HandleState) (tm : TransactionManager) (requestFails : Bool) :
    Except String (HandleState × TransactionManager × List Eff) :=
  if hs.detaching then Except.error "detaching already in progress"
  else if hs.detached then Except.error "already detached"
  else
    let hs1 : HandleState := { hs with detaching := true }
    if requestFails then Except.ok ({ hs1 with detaching := false }, tm, [])
    else Except.ok (_signalDetach hs1 tm)

end Handle

namespace Session

/-- `Session._isKeepaliveTx`. -/
def _isKeepaliveTx (tm : TransactionManager) (id : String) : Bool :=
  match tm.get id with
  | some tx => tx.request = "keepalive"
  | none => false

/-- `Session._signalDestroy`: once only — unset the keep-alive task, close
all session-owned transactions with "session destroyed", clear the handle
table and emit SESSION_DESTROYED. -/
def _signalDestroy (ss : SessState) (tm : TransactionManager) :
    SessState × TransactionManager × List Eff :=
  if ss.destroyed then (ss, tm, [])
  else
    let r := tm.closeAllTransactionsWithError (some ss.ref) "session destroyed"
    ({ ss with destroying := false, destroyed := true, kaTask := false,
               handles := [] },
      r.1, r.2 ++ [Eff.emit ss.ref.tag "session_destroyed"])

/-- `Session._handleMessage`: messages with a sender go to that handle;
otherwise a message with a transaction whose recorded owner is a handle of
this session (reference-identical) is delegated to that handle (the
trickle-ack special case); otherwise a session-owned transaction is closed
when the message is a definitive response or the pending verb is keepalive;
otherwise a `janus=timeout` destroys the session. -/
def _handleMessage (ss : SessState) (tm : TransactionManager) (msg : Msg) :
    SessState × TransactionManager × List Eff :=
  if msg.sender ≠ 0 then
    match findA ss.handles msg.sender with
    | none => (ss, tm, [])
    | some hs =>
      let r := Handle._handleMessage hs tm msg
      ({ ss with handles := setA ss.handles msg.sender r.1 }, r.2.1, r.2.2)
  else
    let ownerHandle : Option (Nat × HandleState) :=
      if msg.transaction ≠ "" then
        match tm.getTransactionOwner msg.transaction with
        | some ow =>
          match findA ss.handles ow.id with
          | some hs => if hs.ref = ow then some (ow.id, hs) else none
          | none => none
        | none => none
      else none
    match ownerHandle with
    | some kh =>
      let r := Handle._handleMessage kh.2 tm msg
      ({ ss with handles := setA ss.handles kh.1 r.1 }, r.2.1, r.2.2)
    | none =>
      if msg.transaction ≠ "" then
        if tm.getTransactionOwner msg.transaction ≠ some ss.ref then (ss, tm, [])
        else if isResponseData msg ∨ _isKeepaliveTx tm msg.transaction then
          if isErrorData msg then
            let r := tm.closeTransactionWithError msg.transaction ss.ref (errorText msg)
            (ss, r.1, r.2.1)
          else
            let r := tm.closeTransactionWithSuccess msg.transaction ss.ref msg
            (ss, r.1, r.2.1)
        else (ss, tm, [])
      else if isTimeoutData msg then _signalDestroy ss tm
      else (ss, tm, [])

/-- `Session._setKeepAlive` computes the per-tick wait as half the period:
`const timeout = delay / 2`. -/
def kaTickTimeout (delay : Nat) : Nat := delay / 2

/-- The session constructor schedules the keep-alive with period
`ka_interval * 1000` milliseconds. -/
def kaDelay (ka_interval : Nat) : Nat := ka_interval * 1000

/-- The catch handler of a failed keep-alive tick (request failure or race
timeout) invokes `_signalDestroy`. -/
def kaOnFail (ss : SessState) (tm : TransactionManager) :
    SessState × TransactionManager × List Eff :=
  _signalDestroy ss tm

end Session

namespace Connection

/-- `Connection._handleMessage`: messages with a session id (outside admin
mode) go to that session; otherwise a connection-owned transaction is
closed on a definitive response, with error on `janus=error`. -/
def _handleMessage (cs : ConnState) (tm : TransactionManager) (msg : Msg) :
    ConnState × TransactionManager × List Eff :=
  if msg.session_id ≠ 0 ∧ ¬cs.isAdmin then
    match findA cs.sessions msg.session_id with
    | none => (cs, tm, [])
    | some ss =>
      let r := Session._handleMessage ss tm msg
      ({ cs with sessions := setA cs.sessions msg.session_id r.1 }, r.2.1, r.2.2)
  else if msg.transaction ≠ "" then
    if tm.getTransactionOwner msg.transaction ≠ some cs.ref then (cs, tm, [])
    else if isResponseData msg then
      if isErrorData msg then
        let r := tm.closeTransactionWithError msg.transaction cs.ref (errorText msg)
        (cs, r.1, r.2.1)
      else
        let r := tm.closeTransactionWithSuccess msg.transaction cs.ref msg
        (cs, r.1, r.2.1)
    else (cs, tm, [])
  else (cs, tm, [])

/-- `Connection._signalClose`: close all pending transactions with a
"connection closed" error, clear the transaction manager, clear the session
table, and emit CONNECTION_CLOSED when graceful or CONNECTION_ERROR
otherwise. -/
def _signalClose (cs : ConnState) (tm : TransactionManager) (graceful : Bool) :
    ConnState × TransactionManager × List Eff :=
  let r := tm.closeAllTransactionsWithError none "connection closed"
  let tm2 := TransactionManager.clear r.1
  ({ cs with sessions := [] }, tm2,
    r.2 ++ [if graceful then Eff.emit cs.ref.tag "connection_closed"
            else Eff.emit cs.ref.tag "connection_error"])

end Connection

/-- `TransportWs._attemptOpen` (identical retry logic in
`TransportUnix._attemptOpen`): try the address selected by the iterator;
on success return; on failure increment the attempt counter, propagate the
error once `attempts >= maxRetries + 1`, otherwise wait, advance the
iterator (discarding `nextElem`'s return value) and recurse.  `outcome k`
is the result of the attempt made when the counter holds `k` (`none` means
the open succeeded, `some e` that it failed with error `e`).  Returns the
addresses attempted in order, the final iterator and the outcome. -/
def attemptOpen (outcome : Nat → Option String) (maxRetries : Nat)
    (iter : CircularIterator String) (attempts : Nat) :
    List (Option String) × CircularIterator String × Except String Unit :=
  let addr := iter.currElem
  match outcome attempts with
  | none => ([addr], iter, Except.ok ())
  | some e =>
    if h : attempts + 1 ≥ maxRetries + 1 then ([addr], iter, Except.error e)
    else
      let r := attemptOpen outcome maxRetries (iter.nextElem).2 (attempts + 1)
      (addr :: r.1, r.2.1, r.2.2)
termination_by maxRetries + 1 - attempts
decreasing_by omega

/-! ### Basic lemmas about the transaction manager -/

namespace TransactionManager

theorem get_some {tm : TransactionManager} {id : String} {tx : PendingTransaction}
    (h : tm.get id = some tx) : id ≠ "" ∧ findA tm.table id = some tx := by
  unfold get has at h
  by_cases hid : id = ""
  · simp [hid] at h
  · refine ⟨hid, ?_⟩
    cases hf : findA tm.table id
    · simp [hid, hf] at h
    · simp [hid, hf] at h
      simp [h]

theorem get_of_findA {tm : TransactionManager} {id : String} {tx : PendingTransaction}
    (hid : id ≠ "") (hf : findA tm.table id = some tx) : tm.get id = some tx := by
  unfold get has
  simp [hid, hf]

theorem getTransactionOwner_of_get {tm : TransactionManager} {id : String}
    {tx : PendingTransaction} (h : tm.get id = some tx) :
    tm.getTransactionOwner id = some tx.owner := by
  obtain ⟨hid, hf⟩ := get_some h
  unfold getTransactionOwner has
  simp [hid, hf, get_of_findA hid hf]

theorem delete_of_get {tm : TransactionManager} {id : String} {tx : PendingTransaction}
    (h : tm.get id = some tx) : tm.delete id = ⟨delA tm.table id⟩ := by
  obtain ⟨hid, hf⟩ := get_some h
  unfold delete has
  simp [hid, hf]

theorem closeSuccess_eq {tm : TransactionManager} {id : String} {tx : PendingTransaction}
    {owner : OwnerRef} (data : Msg) (h : tm.get id = some tx) (ho : tx.owner = owner) :
    tm.closeTransactionWithSuccess id owner data
      = (tm.delete id, [Eff.done tx.cb data], some tx) := by
  unfold closeTransactionWithSuccess
  rw [h]
  simp [ho]

theorem closeError_eq {tm : TransactionManager} {id : String} {tx : PendingTransaction}
    {owner : OwnerRef} (emsg : String) (h : tm.get id = some tx) (ho : tx.owner = owner) :
    tm.closeTransactionWithError id owner emsg
      = (tm.delete id, [Eff.err tx.cb emsg], some tx) := by
  unfold closeTransactionWithError
  rw [h]
  simp [ho]

end TransactionManager

theorem setA_self {κ β : Type} [DecidableEq κ] :
    ∀ (l : List (κ × β)) (key : κ) (v : β), findA l key = some v → setA l key v = l := by
  intro l
  induction l with
  | nil => intro key v h; simp [findA] at h
  | cons hd tl ih =>
    intro key v h
    obtain ⟨k, w⟩ := hd
    by_cases hk : k = key
    · subst hk
      simp [findA] at h
      simp [setA, h]
    · simp [findA, hk] at h
      simp [setA, hk, ih key v h]

theorem findA_append_left {κ β : Type} [DecidableEq κ] :
    ∀ (l1 l2 : List (κ × β)) (key : κ), key ∉ l1.map Prod.fst →
      findA (l1 ++ l2) key = findA l2 key := by
  intro l1
  induction l1 with
  | nil => intro l2 key _; simp
  | cons hd tl ih =>
    intro l2 key h
    obtain ⟨k, w⟩ := hd
    simp only [List.map_cons, List.mem_cons] at h
    push_neg at h
    simp [findA, Ne.symm h.1, ih l2 key h.2]

theorem delA_append_left {κ β : Type} [DecidableEq κ] :
    ∀ (l1 l2 : List (κ × β)) (key : κ), key ∉ l1.map Prod.fst →
      delA (l1 ++ l2) key = l1 ++ delA l2 key := by
  intro l1
  induction l1 with
  | nil => intro l2 key _; simp
  | cons hd tl ih =>
    intro l2 key h
    obtain ⟨k, w⟩ := hd
    simp only [List.map_cons, List.mem_cons] at h
    push_neg at h
    simp [delA, Ne.symm h.1, ih l2 key h.2]

/-! ### The transaction-manager operation machine (for the at-most-once
invariant) -/

/-- The operations the repository performs on a transaction manager:
creating a transaction (from `sendRequest` at any level), closing one with
success or error, closing all (teardowns) and an armed timeout firing. -/
inductive TMOp where
  | create (id : String) (owner : OwnerRef) (request : String) (cb : Nat) (timeout_ms : Nat)
  | closeOk (id : String) (owner : OwnerRef) (data : Msg)
  | closeErr (id : String) (owner : OwnerRef) (emsg : String)
  | closeAll (owner : Option OwnerRef) (emsg : String)
  | fire (id : String)
deriving DecidableEq

/-- One operation applied to a manager, with the effects it produces. -/
def TransactionManager.step (tm : TransactionManager) :
    TMOp → TransactionManager × List Eff
  | TMOp.create id owner request cb tms =>
    ((tm.createTransaction id owner request cb tms).1, [])
  | TMOp.closeOk id owner data =>
    let r := tm.closeTransactionWithSuccess id owner data
    (r.1, r.2.1)
  | TMOp.closeErr id owner emsg =>
    let r := tm.closeTransactionWithError id owner emsg
    (r.1, r.2.1)
  | TMOp.closeAll owner emsg => tm.closeAllTransactionsWithError owner emsg
  | TMOp.fire id => tm.timeoutFire id

/-- A run of the machine: the final manager and the concatenated effects. -/
def TransactionManager.run (tm : TransactionManager) :
    List TMOp → TransactionManager × List Eff
  | [] => (tm, [])
  | op :: ops =>
    let r := tm.step op
    let r2 := r.1.run ops
    (r2.1, r.2 ++ r2.2)

/-- The continuation pair a callback effect invokes (none for emitter
events). -/
def Eff.cbOf : Eff → Option Nat
  | Eff.done cb _ => some cb
  | Eff.err cb _ => some cb
  | Eff.emit _ _ => none

/-- How many effects of a trace invoke the continuation pair `c`. -/
def cbEvents (evs : List Eff) (c : Nat) : Nat :=
  (evs.filter (fun e => Eff.cbOf e = some c)).length

/-- How many stored transactions carry the continuation pair `c`. -/
def cbTable (tm : TransactionManager) (c : Nat) : Nat :=
  (tm.table.filter (fun p => p.2.cb = c)).length

/-- How many create operations of a run carry the continuation pair `c`. -/
def cbCreates (ops : List TMOp) (c : Nat) : Nat :=
  (ops.filter (fun op =>
    match op with
    | TMOp.create _ _ _ cb _ => decide (cb = c)
    | _ => false)).length

theorem delA_filter_len (c : Nat) :
    ∀ (l : List (String × PendingTransaction)) (key : String) (tx : PendingTransaction),
      findA l key = some tx →
      ((delA l key).filter (fun p => p.2.cb = c)).length
        + (if tx.cb = c then 1 else 0)
        = (l.filter (fun p => p.2.cb = c)).length := by
  intro l
  induction l with
  | nil => intro key tx h; simp [findA] at h
  | cons hd tl ih =>
    intro key tx h
    obtain ⟨k, v⟩ := hd
    by_cases hk : k = key
    · subst hk
      simp [findA] at h
      subst h
      simp only [delA, if_pos rfl, List.filter_cons]
      by_cases hc : v.cb = c
      · simp [hc]
      · simp [hc]
    · simp [findA, hk] at h
      have hih := ih key tx h
      simp only [delA, if_neg hk, List.filter_cons]
      by_cases hc : v.cb = c
      · simp only [hc]
        simp
        omega
      · simp only [hc]
        simp [hc]
        omega

theorem setA_append {κ β : Type} [DecidableEq κ] :
    ∀ (l : List (κ × β)) (key : κ) (v : β), findA l key = none →
      setA l key v = l ++ [(key, v)] := by
  intro l
  induction l with
  | nil => intro key v _; simp [setA]
  | cons hd tl ih =>
    intro key v h
    obtain ⟨k, w⟩ := hd
    by_cases hk : k = key
    · simp [findA, hk] at h
    · simp [findA, hk] at h
      simp [setA, hk, ih key v h]


theorem closeError_none {tm : TransactionManager} {id : String} {owner : OwnerRef}
    {emsg : String} (h : tm.get id = none) :
    tm.closeTransactionWithError id owner emsg = (tm, [], none) := by
  unfold TransactionManager.closeTransactionWithError
  rw [h]

theorem closeError_mismatch {tm : TransactionManager} {id : String} {owner : OwnerRef}
    {emsg : String} {tx : PendingTransaction} (h : tm.get id = some tx)
    (ho : tx.owner ≠ owner) :
    tm.closeTransactionWithError id owner emsg = (tm, [], none) := by
  unfold TransactionManager.closeTransactionWithError
  rw [h]
  simp [ho]

theorem closeSuccess_none {tm : TransactionManager} {id : String} {owner : OwnerRef}
    {data : Msg} (h : tm.get id = none) :
    tm.closeTransactionWithSuccess id owner data = (tm, [], none) := by
  unfold TransactionManager.closeTransactionWithSuccess
  rw [h]

theorem closeSuccess_mismatch {tm : TransactionManager} {id : String} {owner : OwnerRef}
    {data : Msg} {tx : PendingTransaction} (h : tm.get id = some tx)
    (ho : tx.owner ≠ owner) :
    tm.closeTransactionWithSuccess id owner data = (tm, [], none) := by
  unfold TransactionManager.closeTransactionWithSuccess
  rw [h]
  simp [ho]

theorem close_err_cb (tm : TransactionManager) (id : String) (owner : OwnerRef)
    (emsg : String) (c : Nat) :
    cbEvents (tm.closeTransactionWithError id owner emsg).2.1 c
      + cbTable (tm.closeTransactionWithError id owner emsg).1 c
      ≤ cbTable tm c := by
  cases hget : tm.get id with
  | none => rw [closeError_none hget]; simp [cbEvents]
  | some tx =>
    by_cases ho : tx.owner = owner
    · rw [TransactionManager.closeError_eq emsg hget ho,
        TransactionManager.delete_of_get hget]
      have hlen := delA_filter_len c tm.table id tx (TransactionManager.get_some hget).2
      by_cases hc : tx.cb = c
      · simp only [cbEvents, cbTable, List.filter_cons, List.filter_nil, Eff.cbOf,
          Option.some.injEq, hc] at *
        simp at *
        omega
      · simp only [cbEvents, cbTable, List.filter_cons, List.filter_nil, Eff.cbOf,
          Option.some.injEq, hc] at *
        simp [hc] at *
        omega
    · rw [closeError_mismatch hget ho]; simp [cbEvents]

theorem close_ok_cb (tm : TransactionManager) (id : String) (owner : OwnerRef)
    (data : Msg) (c : Nat) :
    cbEvents (tm.closeTransactionWithSuccess id owner data).2.1 c
      + cbTable (tm.closeTransactionWithSuccess id owner data).1 c
      ≤ cbTable tm c := by
  cases hget : tm.get id with
  | none => rw [closeSuccess_none hget]; simp [cbEvents]
  | some tx =>
    by_cases ho : tx.owner = owner
    · rw [TransactionManager.closeSuccess_eq data hget ho,
        TransactionManager.delete_of_get hget]
      have hlen := delA_filter_len c tm.table id tx (TransactionManager.get_some hget).2
      by_cases hc : tx.cb = c
      · simp only [cbEvents, cbTable, List.filter_cons, List.filter_nil, Eff.cbOf,
          Option.some.injEq, hc] at *
        simp at *
        omega
      · simp only [cbEvents, cbTable, List.filter_cons, List.filter_nil, Eff.cbOf,
          Option.some.injEq, hc] at *
        simp [hc] at *
        omega
    · rw [closeSuccess_mismatch hget ho]; simp [cbEvents]

theorem fire_cb (tm : TransactionManager) (id : String) (c : Nat) :
    cbEvents (tm.timeoutFire id).2 c + cbTable (tm.timeoutFire id).1 c
      ≤ cbTable tm c := by
  unfold TransactionManager.timeoutFire
  cases hget : tm.get id with
  | none => simp [cbEvents]
  | some tx =>
    dsimp only
    by_cases ha : tx.timeoutArmed
    · rw [if_pos ha, TransactionManager.delete_of_get hget]
      have hlen := delA_filter_len c tm.table id tx (TransactionManager.get_some hget).2
      by_cases hc : tx.cb = c
      · simp only [cbEvents, cbTable, List.filter_cons, List.filter_nil, Eff.cbOf,
          Option.some.injEq, hc] at *
        simp at *
        omega
      · simp only [cbEvents, cbTable, List.filter_cons, List.filter_nil, Eff.cbOf,
          Option.some.injEq, hc] at *
        simp [hc] at *
        omega
    · rw [if_neg ha]
      simp [cbEvents]

theorem create_cb (tm : TransactionManager) (id : String) (owner : OwnerRef)
    (request : String) (cb : Nat) (tms : Nat) (c : Nat) :
    cbTable (tm.createTransaction id owner request cb tms).1 c
      ≤ cbTable tm c + (if cb = c then 1 else 0) := by
  unfold TransactionManager.createTransaction
  by_cases hhas : tm.has id
  · simp only [hhas, if_true]
    omega
  · simp only [hhas, Bool.false_eq_true, if_false]
    unfold TransactionManager.set
    by_cases hid : id = ""
    · simp [hid]
    · simp only [if_neg hid]
      have hf : findA tm.table id = none := by
        unfold TransactionManager.has at hhas
        rw [if_neg hid] at hhas
        cases hfa : findA tm.table id
        · rfl
        · rw [hfa] at hhas; simp at hhas
      rw [setA_append tm.table id _ hf]
      by_cases hc : cb = c
      · simp [cbTable, List.filter_append, hc]
      · simp [cbTable, List.filter_append, hc]

theorem closeAllAux_cb (owner : Option OwnerRef) (emsg : String) (c : Nat) :
    ∀ (entries : List (String × PendingTransaction)) (tm : TransactionManager),
      cbEvents (TransactionManager.closeAllAux owner emsg tm entries).2 c
        + cbTable (TransactionManager.closeAllAux owner emsg tm entries).1 c
        ≤ cbTable tm c := by
  intro entries
  induction entries with
  | nil => intro tm; simp [TransactionManager.closeAllAux, cbEvents]
  | cons hd tl ih =>
    intro tm
    obtain ⟨k, tx⟩ := hd
    unfold TransactionManager.closeAllAux
    by_cases hm : TransactionManager.ownerMatches owner tx
    · simp only [hm, if_true]
      have h1 := close_err_cb tm tx.id tx.owner emsg c
      have h2 := ih (tm.closeTransactionWithError tx.id tx.owner emsg).1
      simp only [cbEvents, List.filter_append, List.length_append] at *
      omega
    · simp only [hm, Bool.false_eq_true, if_false]
      have h2 := ih tm
      simp only [cbEvents, List.filter_append, List.length_append, List.filter_nil,
        List.length_nil] at *
      omega

theorem cbEvents_append (l1 l2 : List Eff) (c : Nat) :
    cbEvents (l1 ++ l2) c = cbEvents l1 c + cbEvents l2 c := by
  simp [cbEvents, List.filter_append]

theorem cbCreates_cons (op : TMOp) (ops : List TMOp) (c : Nat) :
    cbCreates (op :: ops) c = cbCreates [op] c + cbCreates ops c := by
  by_cases h : (match op with
    | TMOp.create _ _ _ cb _ => decide (cb = c)
    | _ => false) = true
  · simp [cbCreates, List.filter_cons, h]
    omega
  · simp [cbCreates, List.filter_cons, h]

theorem step_cb (tm : TransactionManager) (op : TMOp) (c : Nat) :
    cbEvents (tm.step op).2 c + cbTable (tm.step op).1 c
      ≤ cbTable tm c + cbCreates [op] c := by
  cases op with
  | create id owner request cb tms =>
    have h := create_cb tm id owner request cb tms c
    have hc : cbCreates [TMOp.create id owner request cb tms] c
        = if cb = c then 1 else 0 := by
      by_cases hcb : cb = c
      · simp [cbCreates, List.filter_cons, hcb]
      · simp [cbCreates, List.filter_cons, hcb]
    show cbEvents [] c + cbTable (tm.createTransaction id owner request cb tms).1 c
      ≤ cbTable tm c + cbCreates [TMOp.create id owner request cb tms] c
    rw [hc]
    have hz : cbEvents [] c = 0 := by simp [cbEvents]
    omega
  | closeOk id owner data =>
    have h := close_ok_cb tm id owner data c
    have hz : cbCreates [TMOp.closeOk id owner data] c = 0 := by
      simp [cbCreates, List.filter_cons]
    show cbEvents (tm.closeTransactionWithSuccess id owner data).2.1 c
        + cbTable (tm.closeTransactionWithSuccess id owner data).1 c
      ≤ cbTable tm c + cbCreates [TMOp.closeOk id owner data] c
    omega
  | closeErr id owner emsg =>
    have h := close_err_cb tm id owner emsg c
    have hz : cbCreates [TMOp.closeErr id owner emsg] c = 0 := by
      simp [cbCreates, List.filter_cons]
    show cbEvents (tm.closeTransactionWithError id owner emsg).2.1 c
        + cbTable (tm.closeTransactionWithError id owner emsg).1 c
      ≤ cbTable tm c + cbCreates [TMOp.closeErr id owner emsg] c
    omega
  | closeAll owner emsg =>
    have h := closeAllAux_cb owner emsg c tm.table tm
    have hz : cbCreates [TMOp.closeAll owner emsg] c = 0 := by
      simp [cbCreates, List.filter_cons]
    show cbEvents (TransactionManager.closeAllAux owner emsg tm tm.table).2 c
        + cbTable (TransactionManager.closeAllAux owner emsg tm tm.table).1 c
      ≤ cbTable tm c + cbCreates [TMOp.closeAll owner emsg] c
    omega
  | fire id =>
    have h := fire_cb tm id c
    have hz : cbCreates [TMOp.fire id] c = 0 := by
      simp [cbCreates, List.filter_cons]
    show cbEvents (tm.timeoutFire id).2 c + cbTable (tm.timeoutFire id).1 c
      ≤ cbTable tm c + cbCreates [TMOp.fire id] c
    omega

theorem run_cb (c : Nat) :
    ∀ (ops : List TMOp) (tm : TransactionManager),
      cbEvents (tm.run ops).2 c + cbTable (tm.run ops).1 c
        ≤ cbTable tm c + cbCreates ops c := by
  intro ops
  induction ops with
  | nil => intro tm; simp [TransactionManager.run, cbEvents, cbCreates]
  | cons op rest ih =>
    intro tm
    have h1 := step_cb tm op c
    have h2 := ih (tm.step op).1
    show cbEvents ((tm.step op).2 ++ ((tm.step op).1.run rest).2) c
        + cbTable ((tm.step op).1.run rest).1 c
      ≤ cbTable tm c + cbCreates (op :: rest) c
    rw [cbEvents_append, cbCreates_cons]
    omega

/-! ### Characterization of closeAllTransactionsWithError on well-formed
tables -/

/-- Well-formedness of a transaction table: keys are distinct (a JavaScript
`Map` cannot hold duplicate keys), each stored record's `id` equals its key
(`set(id, tx)` is only ever called with `tx.id = id`) and no key is the
empty string (`set` refuses falsy ids). -/
def entsWF (l : List (String × PendingTransaction)) : Prop :=
  (l.map Prod.fst).Nodup ∧ ∀ p ∈ l, p.2.id = p.1 ∧ p.1 ≠ ""

/-- Well-formedness of a transaction manager. -/
def TransactionManager.WF (tm : TransactionManager) : Prop := entsWF tm.table

instance : DecidablePred entsWF := by
  intro l
  unfold entsWF
  infer_instance

theorem entsWF_middle {pre : List (String × PendingTransaction)}
    {p : String × PendingTransaction} {rest : List (String × PendingTransaction)}
    (h : entsWF (pre ++ p :: rest)) : entsWF (pre ++ rest) := by
  obtain ⟨hnd, hmem⟩ := h
  refine ⟨?_, ?_⟩
  · have hsub : List.Sublist (pre ++ rest) (pre ++ p :: rest) :=
      List.Sublist.append_left (List.sublist_cons_self p rest) pre
    exact hnd.sublist (hsub.map Prod.fst)
  · intro q hq
    apply hmem
    rcases List.mem_append.mp hq with hql | hqr
    · exact List.mem_append.mpr (Or.inl hql)
    · exact List.mem_append.mpr (Or.inr (List.mem_cons_of_mem p hqr))

theorem closeAllAux_spec (owner : Option OwnerRef) (emsg : String) :
    ∀ (entries pre : List (String × PendingTransaction)),
      entsWF (pre ++ entries) →
      TransactionManager.closeAllAux owner emsg ⟨pre ++ entries⟩ entries
        = (⟨pre ++ entries.filter (fun p => !(TransactionManager.ownerMatches owner p.2))⟩,
           (entries.filter (fun p => TransactionManager.ownerMatches owner p.2)).map
             (fun p => Eff.err p.2.cb emsg)) := by
  intro entries
  induction entries with
  | nil =>
    intro pre _
    simp [TransactionManager.closeAllAux]
  | cons hd rest ih =>
    intro pre hwf
    obtain ⟨k, tx⟩ := hd
    have hid : tx.id = k ∧ k ≠ "" := by
      have := hwf.2 (k, tx) (List.mem_append.mpr (Or.inr (List.mem_cons_self _ _)))
      exact this
    have hkpre : k ∉ pre.map Prod.fst := by
      have hnd := hwf.1
      rw [List.map_append] at hnd
      have := (List.nodup_append.mp hnd).2.2
      intro hkin
      exact this hkin (by simp)
    unfold TransactionManager.closeAllAux
    by_cases hm : TransactionManager.ownerMatches owner tx
    · simp only [hm, if_true]
      have hfind : findA (pre ++ (k, tx) :: rest) tx.id = some tx := by
        rw [hid.1, findA_append_left pre ((k, tx) :: rest) k hkpre]
        simp [findA]
      have hget : TransactionManager.get ⟨pre ++ (k, tx) :: rest⟩ tx.id = some tx := by
        apply TransactionManager.get_of_findA _ hfind
        rw [hid.1]; exact hid.2
      rw [TransactionManager.closeError_eq emsg hget rfl,
        TransactionManager.delete_of_get hget]
      have hdel : delA (pre ++ (k, tx) :: rest) tx.id = pre ++ rest := by
        rw [hid.1, delA_append_left pre ((k, tx) :: rest) k hkpre]
        simp [delA]
      rw [hdel]
      rw [ih pre (entsWF_middle hwf)]
      simp [List.filter_cons, hm]
    · simp only [hm, Bool.false_eq_true, if_false]
      have hwf2 : entsWF ((pre ++ [(k, tx)]) ++ rest) := by
        rw [List.append_assoc]
        simpa using hwf
      have hre : pre ++ (k, tx) :: rest = (pre ++ [(k, tx)]) ++ rest := by
        simp
      rw [hre, ih (pre ++ [(k, tx)]) hwf2]
      simp [List.filter_cons, hm]

theorem closeAll_spec (tm : TransactionManager) (owner : Option OwnerRef)
    (emsg : String) (h : tm.WF) :
    tm.closeAllTransactionsWithError owner emsg
      = (⟨tm.table.filter (fun p => !(TransactionManager.ownerMatches owner p.2))⟩,
         (tm.table.filter (fun p => TransactionManager.ownerMatches owner p.2)).map
           (fun p => Eff.err p.2.cb emsg)) := by
  have := closeAllAux_spec owner emsg tm.table [] (by simpa using h)
  simpa [TransactionManager.closeAllTransactionsWithError] using this

/-! ### Claim theorems -/

instance (tm : TransactionManager) : Decidable tm.WF :=
  inferInstanceAs (Decidable (entsWF tm.table))

/-- C10: calling `createTransaction` with the empty string as the
transaction id returns a newly built pending-transaction record, yet the
manager's table is left unchanged: `set("")` is a no-op, so `has("")`
stays false and `size()` is unchanged, the record can never be looked up
(`get("")` is nothing) and never closed through the manager (both close
operations on `""` are no-ops). -/
theorem c10_create_with_empty_id (tm : TransactionManager) (owner : OwnerRef)
    (request : String) (cb : Nat) (timeout_ms : Nat) (data : Msg) (emsg : String) :
    tm.createTransaction "" owner request cb timeout_ms
      = (tm, some { id := "", owner := owner, request := request, cb := cb,
                    timeoutArmed := timeout_ms ≠ 0 }) ∧
    tm.has "" = false ∧
    (tm.createTransaction "" owner request cb timeout_ms).1.size = tm.size ∧
    tm.get "" = none ∧
    tm.closeTransactionWithSuccess "" owner data = (tm, [], none) ∧
    tm.closeTransactionWithError "" owner emsg = (tm, [], none) := by
  have hhas : tm.has "" = false := by simp [TransactionManager.has]
  have hget : tm.get "" = none := by simp [TransactionManager.get]
  have hcreate : tm.createTransaction "" owner request cb timeout_ms
      = (tm, some { id := "", owner := owner, request := request, cb := cb,
                    timeoutArmed := timeout_ms ≠ 0 }) := by
    unfold TransactionManager.createTransaction TransactionManager.set
    simp [hhas]
  refine ⟨hcreate, hhas, by rw [hcreate], hget,
    closeSuccess_none hget, closeError_none hget⟩

/-- C2: calling `closeTransactionWithSuccess` or `closeTransactionWithError`
with an id that is not in the table, or with an owner that is not
reference-identical to the owner recorded at creation, is a no-op: the
table (hence every armed timer) is unchanged, no done or error continuation
is invoked, and nothing is returned. -/
theorem c2_close_mismatch_noop (tm : TransactionManager) (id : String)
    (owner : OwnerRef) (data : Msg) (emsg : String)
    (h : tm.get id = none ∨ ∃ tx, tm.get id = some tx ∧ tx.owner ≠ owner) :
    tm.closeTransactionWithSuccess id owner data = (tm, [], none) ∧
    tm.closeTransactionWithError id owner emsg = (tm, [], none) := by
  rcases h with hn | ⟨tx, hs, ho⟩
  · exact ⟨closeSuccess_none hn, closeError_none hn⟩
  · exact ⟨closeSuccess_mismatch hs ho,
      closeError_mismatch hs ho⟩

/-- Witness for C2: a one-entry table whose transaction is owned by owner
tag 1; closing with the distinct owner tag 2 is a no-op for both closes. -/
theorem c2_close_mismatch_noop_witness :
    ((TransactionManager.mk [("t1", ⟨"t1", ⟨1, 1⟩, "info", 0, false⟩)]).get "t1" = none ∨
      ∃ tx, (TransactionManager.mk [("t1", ⟨"t1", ⟨1, 1⟩, "info", 0, false⟩)]).get "t1"
          = some tx ∧ tx.owner ≠ ⟨2, 2⟩) ∧
    ((TransactionManager.mk [("t1", ⟨"t1", ⟨1, 1⟩, "info", 0, false⟩)]).closeTransactionWithSuccess
        "t1" ⟨2, 2⟩ ⟨"success", "t1", 0, 0, none⟩
      = (⟨[("t1", ⟨"t1", ⟨1, 1⟩, "info", 0, false⟩)]⟩, [], none) ∧
     (TransactionManager.mk [("t1", ⟨"t1", ⟨1, 1⟩, "info", 0, false⟩)]).closeTransactionWithError
        "t1" ⟨2, 2⟩ "boom"
      = (⟨[("t1", ⟨"t1", ⟨1, 1⟩, "info", 0, false⟩)]⟩, [], none)) :=
  ⟨by decide,
   c2_close_mismatch_noop ⟨[("t1", ⟨"t1", ⟨1, 1⟩, "info", 0, false⟩)]⟩ "t1" ⟨2, 2⟩
     ⟨"success", "t1", 0, 0, none⟩ "boom" (by decide)⟩

/-- C8 counterexample: on the iterator freshly built from ["A", "B"],
`nextElem()` returns "A" (the element *before* advancing, because the
source uses a post-increment `l[i++ % len]`), while the subsequent
`currElem()` returns "B" — so `nextElem` does not return the new current
element and the two do not agree right after a `nextElem` call. -/
theorem c8_counterexample :
    ¬ ((CircularIterator.nextElem (newIterator ["A", "B"])).2.currElem
        = (CircularIterator.nextElem (newIterator ["A", "B"])).1) := by decide

/-- C8 (amended): for the iterator built from a non-empty list, `currElem()`
returns the element at the current position without advancing (some element
always exists), while `nextElem()` returns the *current* element and then
advances the index by one — so immediately after `nextElem()`, `currElem()`
returns the successor (wrapping modulo the list length) of the element
`nextElem` just returned; both operations wrap modulo the list length. -/
theorem c8_iterator_post_increment {α : Type} (l : List α) (i : Nat) (hl : l ≠ []) :
    (CircularIterator.currElem ⟨l, i⟩).isSome = true ∧
    (CircularIterator.nextElem ⟨l, i⟩).1 = CircularIterator.currElem ⟨l, i⟩ ∧
    (CircularIterator.nextElem ⟨l, i⟩).2 = ⟨l, i + 1⟩ ∧
    CircularIterator.currElem ⟨l, i + l.length⟩ = CircularIterator.currElem ⟨l, i⟩ := by
  refine ⟨?_, rfl, rfl, ?_⟩
  · unfold CircularIterator.currElem
    have hlen : 0 < l.length := List.length_pos.mpr hl
    have hidx : i % l.length < l.length := Nat.mod_lt i hlen
    rw [List.get?_eq_get hidx]
    rfl
  · unfold CircularIterator.currElem
    simp [Nat.add_mod_right]

/-- Witness for C8 (amended) at the two-element list ["A", "B"], index 0. -/
theorem c8_iterator_post_increment_witness :
    (["A", "B"] : List String) ≠ [] ∧
    ((CircularIterator.currElem ⟨["A", "B"], 0⟩).isSome = true ∧
     (CircularIterator.nextElem ⟨["A", "B"], 0⟩).1
        = CircularIterator.currElem ⟨["A", "B"], 0⟩ ∧
     (CircularIterator.nextElem ⟨["A", "B"], 0⟩).2 = ⟨["A", "B"], 0 + 1⟩ ∧
     CircularIterator.currElem ⟨["A", "B"], 0 + (["A", "B"] : List String).length⟩
        = CircularIterator.currElem ⟨["A", "B"], 0⟩) :=
  ⟨by decide, c8_iterator_post_increment ["A", "B"] 0 (by decide)⟩

/-- C5 counterexample: with addresses ["A", "B"], `max_retries = 1`,
`retry_time_secs = 0` and every open attempt failing, after `open()`
rejects the address iterator's current element is "B" — the failing address
itself — and not B's successor "A" as the claim states (the iterator is not
advanced after the final failed attempt). -/
theorem c5_counterexample :
    ¬ ((attemptOpen (fun _ => some "failed") 1 (newIterator ["A", "B"]) 0).2.1.currElem
        = some "A") := by
  have h : attemptOpen (fun _ => some "failed") 1 (newIterator ["A", "B"]) 0
      = ([some "A", some "B"], ⟨["A", "B"], 1⟩, Except.error "failed") := by
    simp [attemptOpen, newIterator, CircularIterator.currElem, CircularIterator.nextElem]
  rw [h]
  decide

/-- C5 (amended): with two configured addresses a and b, `max_retries = 1`
and `retry_time_secs = 0`, when the first attempt fails with e1 and the
second with e2, `open()` makes exactly one attempt on a, advances the
circular address iterator, makes exactly one attempt on b, and rejects
with the last attempt's error e2; after the failure the iterator's current
element is b itself (index 1), not b's successor. -/
theorem c5_failover_two_addresses (a b : String) (e1 e2 : String) :
    attemptOpen (fun k => if k = 0 then some e1 else some e2) 1 (newIterator [a, b]) 0
      = ([some a, some b], ⟨[a, b], 1⟩, Except.error e2) ∧
    CircularIterator.currElem ⟨[a, b], 1⟩ = some b := by
  constructor
  · simp [attemptOpen, newIterator, CircularIterator.currElem, CircularIterator.nextElem]
  · simp [CircularIterator.currElem]

/-- C1: every pending transaction is closed at most once.  Over an
arbitrary sequence of manager operations (creates, closes with success or
error, owner-filtered close-alls and armed-timeout firings), a given
done/error continuation pair is invoked at most once, provided it is fresh
— it occurs at most once among the initial table and the create operations
combined.  In particular, once a transaction id has been closed (with
success, with error, or by its armed timeout), any later close or timeout
firing for it invokes no callback for that transaction. -/
theorem c1_transaction_closed_at_most_once (tm : TransactionManager)
    (ops : List TMOp) (c : Nat) (h : cbTable tm c + cbCreates ops c ≤ 1) :
    cbEvents (tm.run ops).2 c ≤ 1 := by
  have := run_cb c ops tm
  omega

/-- Witness for C1: a run that creates transaction "t1" with an armed
timeout and continuation pair 5, closes it with success, then attempts a
second close with success, a close with error, and a timeout firing — the
trace invokes continuation 5 exactly once. -/
theorem c1_transaction_closed_at_most_once_witness :
    (cbTable ⟨[]⟩ 5
      + cbCreates [TMOp.create "t1" ⟨1, 1⟩ "message" 5 100,
          TMOp.closeOk "t1" ⟨1, 1⟩ ⟨"success", "t1", 0, 0, none⟩,
          TMOp.closeOk "t1" ⟨1, 1⟩ ⟨"success", "t1", 0, 0, none⟩,
          TMOp.closeErr "t1" ⟨1, 1⟩ "late",
          TMOp.fire "t1"] 5 ≤ 1) ∧
    cbEvents ((TransactionManager.mk []).run
        [TMOp.create "t1" ⟨1, 1⟩ "message" 5 100,
         TMOp.closeOk "t1" ⟨1, 1⟩ ⟨"success", "t1", 0, 0, none⟩,
         TMOp.closeOk "t1" ⟨1, 1⟩ ⟨"success", "t1", 0, 0, none⟩,
         TMOp.closeErr "t1" ⟨1, 1⟩ "late",
         TMOp.fire "t1"]).2 5 ≤ 1 :=
  ⟨by decide,
   c1_transaction_closed_at_most_once ⟨[]⟩
     [TMOp.create "t1" ⟨1, 1⟩ "message" 5 100,
      TMOp.closeOk "t1" ⟨1, 1⟩ ⟨"success", "t1", 0, 0, none⟩,
      TMOp.closeOk "t1" ⟨1, 1⟩ ⟨"success", "t1", 0, 0, none⟩,
      TMOp.closeErr "t1" ⟨1, 1⟩ "late",
      TMOp.fire "t1"] 5 (by decide)⟩

/-- C7: after `_signalClose(graceful)` returns, every pending transaction
of the connection's manager (in particular every connection-owned one) has
been closed with a "connection closed" error and no other error, the
transaction manager's table is empty, the session table is empty, and
CONNECTION_CLOSED was emitted when `graceful` is true while
CONNECTION_ERROR was emitted otherwise. -/
theorem c7_signal_close (cs : ConnState) (tm : TransactionManager) (g : Bool)
    (h : tm.WF) :
    Connection._signalClose cs tm g
      = ({ cs with sessions := [] }, ⟨[]⟩,
         tm.table.map (fun p => Eff.err p.2.cb "connection closed")
           ++ [Eff.emit cs.ref.tag (if g then "connection_closed" else "connection_error")]) := by
  unfold Connection._signalClose
  rw [closeAll_spec tm none "connection closed" h]
  cases g <;>
    simp [TransactionManager.ownerMatches, TransactionManager.clear]

/-- Witness for C7: a two-entry table (one connection-owned, one
session-owned transaction); a graceful close empties both tables, fails
every transaction with "connection closed" and emits CONNECTION_CLOSED. -/
theorem c7_signal_close_witness :
    (TransactionManager.mk
        [("t1", ⟨"t1", ⟨1, 1⟩, "info", 3, false⟩),
         ("t2", ⟨"t2", ⟨2, 9⟩, "keepalive", 4, false⟩)]).WF ∧
    Connection._signalClose ⟨⟨1, 1⟩, false, [(9, ⟨⟨2, 9⟩, [], false, false, true⟩)]⟩
        ⟨[("t1", ⟨"t1", ⟨1, 1⟩, "info", 3, false⟩),
          ("t2", ⟨"t2", ⟨2, 9⟩, "keepalive", 4, false⟩)]⟩ true
      = ({ (⟨⟨1, 1⟩, false, [(9, ⟨⟨2, 9⟩, [], false, false, true⟩)]⟩ : ConnState)
             with sessions := [] }, ⟨[]⟩,
         ([("t1", (⟨"t1", ⟨1, 1⟩, "info", 3, false⟩ : PendingTransaction)),
           ("t2", ⟨"t2", ⟨2, 9⟩, "keepalive", 4, false⟩)]).map
             (fun p => Eff.err p.2.cb "connection closed")
           ++ [Eff.emit 1 (if true then "connection_closed" else "connection_error")]) :=
  ⟨by decide,
   c7_signal_close ⟨⟨1, 1⟩, false, [(9, ⟨⟨2, 9⟩, [], false, false, true⟩)]⟩
     ⟨[("t1", ⟨"t1", ⟨1, 1⟩, "info", 3, false⟩),
       ("t2", ⟨"t2", ⟨2, 9⟩, "keepalive", 4, false⟩)]⟩ true (by decide)⟩

/-- C6: a session created with keepalive interval K seconds schedules a
tick every K*1000 ms and races each `{janus:"keepalive"}` request against a
per-tick timeout of K*500 ms — half the period; on request failure or race
timeout the catch handler runs `_signalDestroy`: the session is marked
destroyed, SESSION_DESTROYED is emitted, exactly the session-owned
transactions are failed with "session destroyed", and the underlying
connection stays open — transactions with any other owner remain in the
table and no CONNECTION_CLOSED or CONNECTION_ERROR is emitted. -/
theorem c6_keepalive_failure (K : Nat) (ss : SessState) (tm : TransactionManager)
    (hwf : tm.WF) (hd : ss.destroyed = false) :
    Session.kaTickTimeout (Session.kaDelay K) = K * 500 ∧
    (Session.kaOnFail ss tm).1.destroyed = true ∧
    (Session.kaOnFail ss tm).2.2
      = (tm.table.filter (fun p => TransactionManager.ownerMatches (some ss.ref) p.2)).map
          (fun p => Eff.err p.2.cb "session destroyed")
        ++ [Eff.emit ss.ref.tag "session_destroyed"] ∧
    (Session.kaOnFail ss tm).2.1.table
      = tm.table.filter (fun p => !(TransactionManager.ownerMatches (some ss.ref) p.2)) := by
  have htick : Session.kaTickTimeout (Session.kaDelay K) = K * 500 := by
    unfold Session.kaTickTimeout Session.kaDelay
    omega
  have hfail : Session.kaOnFail ss tm
      = ({ ss with destroying := false, destroyed := true, kaTask := false,
                   handles := [] },
         ⟨tm.table.filter (fun p => !(TransactionManager.ownerMatches (some ss.ref) p.2))⟩,
         (tm.table.filter (fun p => TransactionManager.ownerMatches (some ss.ref) p.2)).map
             (fun p => Eff.err p.2.cb "session destroyed")
           ++ [Eff.emit ss.ref.tag "session_destroyed"]) := by
    unfold Session.kaOnFail Session._signalDestroy
    rw [if_neg (by simp [hd])]
    rw [closeAll_spec tm (some ss.ref) "session destroyed" hwf]
  exact ⟨htick, by rw [hfail], by rw [hfail], by rw [hfail]⟩

/-- Witness for C6: interval K = 1 gives a 500 ms per-tick timeout; the
failure handler destroys a live session owning one of two transactions,
failing only that one and leaving the connection-owned one pending. -/
theorem c6_keepalive_failure_witness :
    (TransactionManager.mk
        [("t1", ⟨"t1", ⟨2, 9⟩, "keepalive", 4, false⟩),
         ("t2", ⟨"t2", ⟨1, 1⟩, "info", 3, false⟩)]).WF ∧
    (⟨⟨2, 9⟩, [], false, false, true⟩ : SessState).destroyed = false ∧
    (Session.kaTickTimeout (Session.kaDelay 1) = 1 * 500 ∧
     (Session.kaOnFail ⟨⟨2, 9⟩, [], false, false, true⟩
        ⟨[("t1", ⟨"t1", ⟨2, 9⟩, "keepalive", 4, false⟩),
          ("t2", ⟨"t2", ⟨1, 1⟩, "info", 3, false⟩)]⟩).1.destroyed = true ∧
     (Session.kaOnFail ⟨⟨2, 9⟩, [], false, false, true⟩
        ⟨[("t1", ⟨"t1", ⟨2, 9⟩, "keepalive", 4, false⟩),
          ("t2", ⟨"t2", ⟨1, 1⟩, "info", 3, false⟩)]⟩).2.2
      = (([("t1", (⟨"t1", ⟨2, 9⟩, "keepalive", 4, false⟩ : PendingTransaction)),
           ("t2", ⟨"t2", ⟨1, 1⟩, "info", 3, false⟩)]).filter
            (fun p => TransactionManager.ownerMatches (some ⟨2, 9⟩) p.2)).map
          (fun p => Eff.err p.2.cb "session destroyed")
        ++ [Eff.emit 2 "session_destroyed"] ∧
     (Session.kaOnFail ⟨⟨2, 9⟩, [], false, false, true⟩
        ⟨[("t1", ⟨"t1", ⟨2, 9⟩, "keepalive", 4, false⟩),
          ("t2", ⟨"t2", ⟨1, 1⟩, "info", 3, false⟩)]⟩).2.1.table
      = ([("t1", (⟨"t1", ⟨2, 9⟩, "keepalive", 4, false⟩ : PendingTransaction)),
          ("t2", ⟨"t2", ⟨1, 1⟩, "info", 3, false⟩)]).filter
          (fun p => !(TransactionManager.ownerMatches (some ⟨2, 9⟩) p.2))) :=
  ⟨by decide, rfl,
   c6_keepalive_failure 1 ⟨⟨2, 9⟩, [], false, false, true⟩
     ⟨[("t1", ⟨"t1", ⟨2, 9⟩, "keepalive", 4, false⟩),
       ("t2", ⟨"t2", ⟨1, 1⟩, "info", 3, false⟩)]⟩ (by decide) rfl⟩

/-- C9 counterexample: on a fresh handle (neither detaching nor detached)
whose detach request fails server-side, `detach()` resolves — but the
resulting handle state has `detaching = false` (the catch block resets the
flag), refuting the claim that the handle is left with `detaching = true`. -/
theorem c9_counterexample :
    Handle.detach ⟨⟨3, 3⟩, false, false⟩ ⟨[]⟩ true
      = Except.ok (⟨⟨3, 3⟩, false, false⟩, ⟨[]⟩, []) ∧
    ((⟨⟨3, 3⟩, false, false⟩ : HandleState).detaching = true → False) := by
  constructor
  · rfl
  · intro h
    simp at h

/-- C9 (amended): when a handle's `detach()` request fails server-side, the
catch block swallows the error — `detach()` resolves without throwing —
and resets `_detaching`, leaving the handle with `detaching = false` and
`detached = false` (so a later `detach()` may retry), with the manager
untouched and nothing emitted; a `detach()` called while a detach is in
progress, or after detachment, rejects. -/
theorem c9_detach_failure_swallowed (hs : HandleState) (tm : TransactionManager)
    (h1 : hs.detaching = false) (h2 : hs.detached = false) :
    Handle.detach hs tm true = Except.ok ({ hs with detaching := false }, tm, []) ∧
    (∀ hs2 : HandleState, hs2.detaching = true →
      ∀ fails : Bool, Handle.detach hs2 tm fails
        = Except.error "detaching already in progress") ∧
    (∀ hs2 : HandleState, hs2.detaching = false → hs2.detached = true →
      ∀ fails : Bool, Handle.detach hs2 tm fails = Except.error "already detached") := by
  refine ⟨?_, ?_, ?_⟩
  · unfold Handle.detach
    rw [if_neg (by simp [h1]), if_neg (by simp [h2])]
    simp
  · intro hs2 hdet fails
    unfold Handle.detach
    rw [if_pos hdet]
  · intro hs2 hdet hdone fails
    unfold Handle.detach
    rw [if_neg (by simp [hdet]), if_pos hdone]

/-- Witness for C9 (amended) on a fresh handle with an empty manager. -/
theorem c9_detach_failure_swallowed_witness :
    (⟨⟨3, 3⟩, false, false⟩ : HandleState).detaching = false ∧
    (⟨⟨3, 3⟩, false, false⟩ : HandleState).detached = false ∧
    (Handle.detach ⟨⟨3, 3⟩, false, false⟩ ⟨[]⟩ true
      = Except.ok ({ (⟨⟨3, 3⟩, false, false⟩ : HandleState) with detaching := false },
          ⟨[]⟩, []) ∧
     (∀ hs2 : HandleState, hs2.detaching = true →
       ∀ fails : Bool, Handle.detach hs2 ⟨[]⟩ fails
         = Except.error "detaching already in progress") ∧
     (∀ hs2 : HandleState, hs2.detaching = false → hs2.detached = true →
       ∀ fails : Bool, Handle.detach hs2 ⟨[]⟩ fails
         = Except.error "already detached")) :=
  ⟨rfl, rfl, c9_detach_failure_swallowed ⟨⟨3, 3⟩, false, false⟩ ⟨[]⟩ rfl rfl⟩

/-! ### Routing lemmas for the definitive-response and trickle-ack claims -/

theorem findA_mem {κ β : Type} [DecidableEq κ] :
    ∀ (l : List (κ × β)) (k : κ) (v : β), findA l k = some v → (k, v) ∈ l := by
  intro l
  induction l with
  | nil => intro k v h; simp [findA] at h
  | cons hd tl ih =>
    intro k v h
    obtain ⟨k2, w⟩ := hd
    by_cases hk : k2 = k
    · subst hk
      simp [findA] at h
      simp [h]
    · simp [findA, hk] at h
      exact List.mem_cons_of_mem _ (ih k v h)

theorem handle_owns_of_get {tm : TransactionManager} {t : String}
    {tx : PendingTransaction} {h : OwnerRef} (htx : tm.get t = some tx)
    (ho : tx.owner = h) : Handle.ownsTransaction tm h t = true := by
  unfold Handle.ownsTransaction
  rw [TransactionManager.getTransactionOwner_of_get htx, ho]
  simp

theorem handle_response_close_success (hs : HandleState) (tm : TransactionManager)
    (t : String) (tx : PendingTransaction) (msg : Msg)
    (htx : tm.get t = some tx) (ho : tx.owner = hs.ref)
    (htr : msg.transaction = t)
    (hj : msg.janus = "success" ∨ msg.janus = "server_info") :
    Handle._handleMessage hs tm msg = (hs, tm.delete t, [Eff.done tx.cb msg]) := by
  obtain ⟨htne, _⟩ := TransactionManager.get_some htx
  have howns := handle_owns_of_get htx ho
  have hack : isAckData msg = false := by
    unfold isAckData; rcases hj with hj | hj <;> simp [hj]
  have hresp : isResponseData msg = true := by
    unfold isResponseData; rcases hj with hj | hj <;> simp [hj]
  have herr : isErrorData msg = false := by
    unfold isErrorData; rcases hj with hj | hj <;> simp [hj]
  have hclose := TransactionManager.closeSuccess_eq msg htx ho
  unfold Handle._handleMessage
  rw [htr]
  by_cases hH : Handle._isHangupTx tm t <;> by_cases hD : Handle._isDetachTx tm t <;>
    simp [htne, howns, hack, hresp, herr, hH, hD, hclose]

theorem handle_response_close_error (hs : HandleState) (tm : TransactionManager)
    (t : String) (tx : PendingTransaction) (msg : Msg)
    (htx : tm.get t = some tx) (ho : tx.owner = hs.ref)
    (htr : msg.transaction = t) (hj : msg.janus = "error") :
    Handle._handleMessage hs tm msg = (hs, tm.delete t, [Eff.err tx.cb (errorText msg)]) := by
  obtain ⟨htne, _⟩ := TransactionManager.get_some htx
  have howns := handle_owns_of_get htx ho
  have hack : isAckData msg = false := by unfold isAckData; simp [hj]
  have hresp : isResponseData msg = true := by unfold isResponseData; simp [hj]
  have herr : isErrorData msg = true := by unfold isErrorData; simp [hj]
  have hclose := TransactionManager.closeError_eq (errorText msg) htx ho
  unfold Handle._handleMessage
  rw [htr]
  simp [htne, howns, hack, hresp, herr, hclose]

theorem session_owner_handle_none (ss : SessState) (tm : TransactionManager)
    (t : String) (tx : PendingTransaction)
    (htx : tm.get t = some tx) (ho : tx.owner = ss.ref)
    (hnh : ∀ p ∈ ss.handles, p.2.ref ≠ ss.ref) :
    (match tm.getTransactionOwner t with
      | some ow =>
        match findA ss.handles ow.id with
        | some hs => if hs.ref = ow then some (ow.id, hs) else none
        | none => none
      | none => none) = (none : Option (Nat × HandleState)) := by
  rw [TransactionManager.getTransactionOwner_of_get htx, ho]
  cases hfa : findA ss.handles ss.ref.id with
  | none => simp [hfa]
  | some h2 =>
    have hmem := findA_mem ss.handles ss.ref.id h2 hfa
    have hne := hnh (ss.ref.id, h2) hmem
    simp only at hne
    simp [hfa, hne]

theorem session_response_close (ss : SessState) (tm : TransactionManager)
    (t : String) (tx : PendingTransaction) (msg : Msg)
    (htx : tm.get t = some tx) (ho : tx.owner = ss.ref)
    (hnh : ∀ p ∈ ss.handles, p.2.ref ≠ ss.ref)
    (hsender : msg.sender = 0) (htr : msg.transaction = t)
    (hresp : isResponseData msg = true) :
    Session._handleMessage ss tm msg
      = if isErrorData msg then (ss, tm.delete t, [Eff.err tx.cb (errorText msg)])
        else (ss, tm.delete t, [Eff.done tx.cb msg]) := by
  obtain ⟨htne, _⟩ := TransactionManager.get_some htx
  have hohn := session_owner_handle_none ss tm t tx htx ho hnh
  have hget := TransactionManager.getTransactionOwner_of_get htx
  have hcloseE := TransactionManager.closeError_eq (errorText msg) htx ho
  have hcloseS := TransactionManager.closeSuccess_eq msg htx ho
  unfold Session._handleMessage
  rw [htr]
  simp only [hsender, ne_eq, not_true_eq_false, if_false, ite_false, htne,
    not_false_eq_true, if_true, ite_true, hohn]
  by_cases herr : isErrorData msg
  · simp [htne, hget, ho, hresp, herr, hcloseE]
  · simp [htne, hget, ho, hresp, herr, hcloseS]

theorem connection_response_close (cs : ConnState) (tm : TransactionManager)
    (t : String) (tx : PendingTransaction) (msg : Msg)
    (htx : tm.get t = some tx) (ho : tx.owner = cs.ref)
    (hsid : msg.session_id = 0) (htr : msg.transaction = t)
    (hresp : isResponseData msg = true) :
    Connection._handleMessage cs tm msg
      = if isErrorData msg then (cs, tm.delete t, [Eff.err tx.cb (errorText msg)])
        else (cs, tm.delete t, [Eff.done tx.cb msg]) := by
  obtain ⟨htne, _⟩ := TransactionManager.get_some htx
  have hget := TransactionManager.getTransactionOwner_of_get htx
  have hcloseE := TransactionManager.closeError_eq (errorText msg) htx ho
  have hcloseS := TransactionManager.closeSuccess_eq msg htx ho
  unfold Connection._handleMessage
  rw [htr]
  by_cases herr : isErrorData msg
  · simp [hsid, htne, hget, ho, hresp, herr, hcloseE]
  · simp [hsid, htne, hget, ho, hresp, herr, hcloseS]

/-- C3: an inbound message with no sender field, a matching transaction and
janus=ack, whose pending transaction's recorded verb is trickle and whose
owner is a handle present in the session's handle table (reference-identical
to the stored entry), is routed by the session's transaction-owner lookup to
the owning handle, which closes the transaction with success — resolving the
original sendRequest caller with the message; an ack for a pending
handle-owned transaction whose verb is not trickle closes nothing. -/
theorem c3_trickle_ack_routing (ss : SessState) (tm : TransactionManager)
    (t : String) (tx : PendingTransaction) (hs : HandleState) (msg : Msg)
    (htx : tm.get t = some tx)
    (hh : findA ss.handles tx.owner.id = some hs)
    (href : hs.ref = tx.owner)
    (hsender : msg.sender = 0) (htr : msg.transaction = t) (hj : msg.janus = "ack") :
    (tx.request = "trickle" →
      Session._handleMessage ss tm msg = (ss, tm.delete t, [Eff.done tx.cb msg])) ∧
    (tx.request ≠ "trickle" →
      Session._handleMessage ss tm msg = (ss, tm, [])) := by
  obtain ⟨htne, _⟩ := TransactionManager.get_some htx
  have howner := TransactionManager.getTransactionOwner_of_get htx
  have hsetA := setA_self ss.handles tx.owner.id hs hh
  have hack : isAckData msg = true := by unfold isAckData; simp [hj]
  have howns := handle_owns_of_get htx href.symm
  have hsess : ∀ r : HandleState × TransactionManager × List Eff,
      Handle._handleMessage hs tm msg = r →
      Session._handleMessage ss tm msg
        = ({ ss with handles := setA ss.handles tx.owner.id r.1 }, r.2.1, r.2.2) := by
    intro r hr
    unfold Session._handleMessage
    rw [htr]
    simp [hsender, htne, howner, hh, href, hr]
  constructor
  · intro hreq
    have htrick : Handle._isTrickleTx tm t = true := by
      unfold Handle._isTrickleTx; rw [htx]; simp [hreq]
    have hclose := TransactionManager.closeSuccess_eq msg htx href.symm
    have hhandle : Handle._handleMessage hs tm msg = (hs, tm.delete t, [Eff.done tx.cb msg]) := by
      unfold Handle._handleMessage
      rw [htr]
      simp [htne, howns, hack, htrick, hclose]
    rw [hsess _ hhandle]
    simp [hsetA]
  · intro hreq
    have htrick : Handle._isTrickleTx tm t = false := by
      unfold Handle._isTrickleTx; rw [htx]; simp [hreq]
    have hhandle : Handle._handleMessage hs tm msg = (hs, tm, []) := by
      unfold Handle._handleMessage
      rw [htr]
      simp [htne, howns, hack, htrick]
    rw [hsess _ hhandle]
    simp [hsetA]

/-- Witness for C3: a session holding handle 7 (tag 2), a pending trickle
transaction "t1" owned by that handle, and an inbound
`{janus:"ack", transaction:"t1"}` without sender: the transaction closes
with success through the owning handle. -/
theorem c3_trickle_ack_routing_witness :
    (TransactionManager.mk
        [("t1", ⟨"t1", ⟨2, 7⟩, "trickle", 1, false⟩)]).get "t1"
      = some ⟨"t1", ⟨2, 7⟩, "trickle", 1, false⟩ ∧
    findA ([(7, ⟨⟨2, 7⟩, false, false⟩)] : List (Nat × HandleState)) 7
      = some ⟨⟨2, 7⟩, false, false⟩ ∧
    ((⟨⟨2, 7⟩, false, false⟩ : HandleState).ref = ⟨2, 7⟩) ∧
    (((⟨"t1", ⟨2, 7⟩, "trickle", 1, false⟩ : PendingTransaction).request = "trickle" →
      Session._handleMessage ⟨⟨1, 10⟩, [(7, ⟨⟨2, 7⟩, false, false⟩)], false, false, true⟩
          ⟨[("t1", ⟨"t1", ⟨2, 7⟩, "trickle", 1, false⟩)]⟩ ⟨"ack", "t1", 0, 0, none⟩
        = (⟨⟨1, 10⟩, [(7, ⟨⟨2, 7⟩, false, false⟩)], false, false, true⟩,
           (TransactionManager.mk
             [("t1", ⟨"t1", ⟨2, 7⟩, "trickle", 1, false⟩)]).delete "t1",
           [Eff.done 1 ⟨"ack", "t1", 0, 0, none⟩])) ∧
     ((⟨"t1", ⟨2, 7⟩, "trickle", 1, false⟩ : PendingTransaction).request ≠ "trickle" →
      Session._handleMessage ⟨⟨1, 10⟩, [(7, ⟨⟨2, 7⟩, false, false⟩)], false, false, true⟩
          ⟨[("t1", ⟨"t1", ⟨2, 7⟩, "trickle", 1, false⟩)]⟩ ⟨"ack", "t1", 0, 0, none⟩
        = (⟨⟨1, 10⟩, [(7, ⟨⟨2, 7⟩, false, false⟩)], false, false, true⟩,
           ⟨[("t1", ⟨"t1", ⟨2, 7⟩, "trickle", 1, false⟩)]⟩, []))) :=
  ⟨by decide, by decide, rfl,
   c3_trickle_ack_routing ⟨⟨1, 10⟩, [(7, ⟨⟨2, 7⟩, false, false⟩)], false, false, true⟩
     ⟨[("t1", ⟨"t1", ⟨2, 7⟩, "trickle", 1, false⟩)]⟩ "t1"
     ⟨"t1", ⟨2, 7⟩, "trickle", 1, false⟩ ⟨⟨2, 7⟩, false, false⟩
     ⟨"ack", "t1", 0, 0, none⟩ (by decide) (by decide) rfl rfl rfl rfl⟩

/-- C4: for a non-trickle pending transaction with a matching inbound
message, a definitive `janus=success` or `janus=server_info` response
resolves the original caller with the message, while `janus=error` rejects
it with an Error whose message is exactly "<code> <reason>" built from the
inbound message's error.code and error.reason fields — at the connection
routing level (when the transaction is connection-owned), at the session
level (session-owned) and at the handle level (handle-owned). -/
theorem c4_definitive_response_resolution
    (cs : ConnState) (ss : SessState) (hs : HandleState) (tm : TransactionManager)
    (t : String) (tx : PendingTransaction) (msgOk msgErr : Msg)
    (code : Nat) (reason : String)
    (htx : tm.get t = some tx) (_hreq : tx.request ≠ "trickle")
    (hok_tr : msgOk.transaction = t) (hok_s : msgOk.sender = 0)
    (hok_sid : msgOk.session_id = 0)
    (hok_j : msgOk.janus = "success" ∨ msgOk.janus = "server_info")
    (herr_tr : msgErr.transaction = t) (herr_s : msgErr.sender = 0)
    (herr_sid : msgErr.session_id = 0)
    (herr_j : msgErr.janus = "error") (herr_e : msgErr.error = some ⟨code, reason⟩)
    (hnh : ∀ p ∈ ss.handles, p.2.ref ≠ ss.ref) :
    (tx.owner = cs.ref →
      Connection._handleMessage cs tm msgOk = (cs, tm.delete t, [Eff.done tx.cb msgOk]) ∧
      Connection._handleMessage cs tm msgErr
        = (cs, tm.delete t, [Eff.err tx.cb (toString code ++ " " ++ reason)])) ∧
    (tx.owner = ss.ref →
      Session._handleMessage ss tm msgOk = (ss, tm.delete t, [Eff.done tx.cb msgOk]) ∧
      Session._handleMessage ss tm msgErr
        = (ss, tm.delete t, [Eff.err tx.cb (toString code ++ " " ++ reason)])) ∧
    (tx.owner = hs.ref →
      Handle._handleMessage hs tm msgOk = (hs, tm.delete t, [Eff.done tx.cb msgOk]) ∧
      Handle._handleMessage hs tm msgErr
        = (hs, tm.delete t, [Eff.err tx.cb (toString code ++ " " ++ reason)])) := by
  have hokResp : isResponseData msgOk = true := by
    unfold isResponseData; rcases hok_j with hj | hj <;> simp [hj]
  have hokErr : isErrorData msgOk = false := by
    unfold isErrorData; rcases hok_j with hj | hj <;> simp [hj]
  have herrResp : isResponseData msgErr = true := by unfold isResponseData; simp [herr_j]
  have herrErr : isErrorData msgErr = true := by unfold isErrorData; simp [herr_j]
  have htext : errorText msgErr = toString code ++ " " ++ reason := by
    unfold errorText; rw [herr_e]
  refine ⟨?_, ?_, ?_⟩
  · intro ho
    constructor
    · rw [connection_response_close cs tm t tx msgOk htx ho hok_sid hok_tr hokResp]
      simp [hokErr]
    · rw [connection_response_close cs tm t tx msgErr htx ho herr_sid herr_tr herrResp]
      simp [herrErr, htext]
  · intro ho
    constructor
    · rw [session_response_close ss tm t tx msgOk htx ho hnh hok_s hok_tr hokResp]
      simp [hokErr]
    · rw [session_response_close ss tm t tx msgErr htx ho hnh herr_s herr_tr herrResp]
      simp [herrErr, htext]
  · intro ho
    constructor
    · exact handle_response_close_success hs tm t tx msgOk htx ho hok_tr hok_j
    · rw [handle_response_close_error hs tm t tx msgErr htx ho herr_tr herr_j, htext]

/-- Witness for C4: transaction "t1" (verb `message`, continuation 7) owned
by reference tag 1, which is simultaneously the connection, session and
handle reference; `{janus:"success"}` resolves with the message at all
three levels, and `{janus:"error", error:{code:432, reason:"no such room"}}`
rejects with "432 no such room". -/
theorem c4_definitive_response_resolution_witness :
    (TransactionManager.mk
        [("t1", ⟨"t1", ⟨1, 1⟩, "message", 7, false⟩)]).get "t1"
      = some ⟨"t1", ⟨1, 1⟩, "message", 7, false⟩ ∧
    ((⟨"t1", ⟨1, 1⟩, "message", 7, false⟩ : PendingTransaction).request ≠ "trickle") ∧
    (∀ p ∈ ([] : List (Nat × HandleState)), p.2.ref ≠ (⟨1, 1⟩ : OwnerRef)) ∧
    (((⟨"t1", ⟨1, 1⟩, "message", 7, false⟩ : PendingTransaction).owner
        = (⟨⟨1, 1⟩, false, []⟩ : ConnState).ref →
      Connection._handleMessage ⟨⟨1, 1⟩, false, []⟩
          ⟨[("t1", ⟨"t1", ⟨1, 1⟩, "message", 7, false⟩)]⟩ ⟨"success", "t1", 0, 0, none⟩
        = (⟨⟨1, 1⟩, false, []⟩,
           (TransactionManager.mk
             [("t1", ⟨"t1", ⟨1, 1⟩, "message", 7, false⟩)]).delete "t1",
           [Eff.done 7 ⟨"success", "t1", 0, 0, none⟩]) ∧
      Connection._handleMessage ⟨⟨1, 1⟩, false, []⟩
          ⟨[("t1", ⟨"t1", ⟨1, 1⟩, "message", 7, false⟩)]⟩
          ⟨"error", "t1", 0, 0, some ⟨432, "no such room"⟩⟩
        = (⟨⟨1, 1⟩, false, []⟩,
           (TransactionManager.mk
             [("t1", ⟨"t1", ⟨1, 1⟩, "message", 7, false⟩)]).delete "t1",
           [Eff.err 7 (toString 432 ++ " " ++ "no such room")])) ∧
     ((⟨"t1", ⟨1, 1⟩, "message", 7, false⟩ : PendingTransaction).owner
        = (⟨⟨1, 1⟩, [], false, false, true⟩ : SessState).ref →
      Session._handleMessage ⟨⟨1, 1⟩, [], false, false, true⟩
          ⟨[("t1", ⟨"t1", ⟨1, 1⟩, "message", 7, false⟩)]⟩ ⟨"success", "t1", 0, 0, none⟩
        = (⟨⟨1, 1⟩, [], false, false, true⟩,
           (TransactionManager.mk
             [("t1", ⟨"t1", ⟨1, 1⟩, "message", 7, false⟩)]).delete "t1",
           [Eff.done 7 ⟨"success", "t1", 0, 0, none⟩]) ∧
      Session._handleMessage ⟨⟨1, 1⟩, [], false, false, true⟩
          ⟨[("t1", ⟨"t1", ⟨1, 1⟩, "message", 7, false⟩)]⟩
          ⟨"error", "t1", 0, 0, some ⟨432, "no such room"⟩⟩
        = (⟨⟨1, 1⟩, [], false, false, true⟩,
           (TransactionManager.mk
             [("t1", ⟨"t1", ⟨1, 1⟩, "message", 7, false⟩)]).delete "t1",
           [Eff.err 7 (toString 432 ++ " " ++ "no such room")])) ∧
     ((⟨"t1", ⟨1, 1⟩, "message", 7, false⟩ : PendingTransaction).owner
        = (⟨⟨1, 1⟩, false, false⟩ : HandleState).ref →
      Handle._handleMessage ⟨⟨1, 1⟩, false, false⟩
          ⟨[("t1", ⟨"t1", ⟨1, 1⟩, "message", 7, false⟩)]⟩ ⟨"success", "t1", 0, 0, none⟩
        = (⟨⟨1, 1⟩, false, false⟩,
           (TransactionManager.mk
             [("t1", ⟨"t1", ⟨1, 1⟩, "message", 7, false⟩)]).delete "t1",
           [Eff.done 7 ⟨"success", "t1", 0, 0, none⟩]) ∧
      Handle._handleMessage ⟨⟨1, 1⟩, false, false⟩
          ⟨[("t1", ⟨"t1", ⟨1, 1⟩, "message", 7, false⟩)]⟩
          ⟨"error", "t1", 0, 0, some ⟨432, "no such room"⟩⟩
        = (⟨⟨1, 1⟩, false, false⟩,
           (TransactionManager.mk
             [("t1", ⟨"t1", ⟨1, 1⟩, "message", 7, false⟩)]).delete "t1",
           [Eff.err 7 (toString 432 ++ " " ++ "no such room")]))) :=
  ⟨by decide, by decide, by simp,
   c4_definitive_response_resolution ⟨⟨1, 1⟩, false, []⟩ ⟨⟨1, 1⟩, [], false, false, true⟩
     ⟨⟨1, 1⟩, false, false⟩ ⟨[("t1", ⟨"t1", ⟨1, 1⟩, "message", 7, false⟩)]⟩ "t1"
     ⟨"t1", ⟨1, 1⟩, "message", 7, false⟩ ⟨"success", "t1", 0, 0, none⟩
     ⟨"error", "t1", 0, 0, some ⟨432, "no such room"⟩⟩ 432 "no such room"
     (by decide) (by decide) rfl rfl rfl (Or.inl rfl) rfl rfl rfl rfl rfl (by simp)⟩
